import Mathlib

/-!
Shallow embedding of the reporting and CRUD logic of `src/app.py`
(a Flask + SQLite personal expense tracker).

Modelling conventions, used consistently below:

* A database row of the `transactions` table is the structure `Tx`; REAL
  amounts are modelled as exact rationals (`ℚ`), `TEXT` columns as `String`.
* Python `dict`s keyed by strings with numeric values are association lists
  `List (String × ℚ)`; `dictSet` is dict assignment (update in place if the
  key exists, else append, matching Python's insertion-order semantics) and
  `dictGet?` / `dictGet` are `dict.get`.
* The SQL `GROUP BY k` of a query is modelled as the list of distinct keys
  (`List.dedup`) with, for every key, the `SUM(amount)` over the rows of
  that group; `ORDER BY` is modelled with `List.insertionSort`, a sort by
  the ordering column (SQLite does not promise any particular order for
  ties, so any date sort is a faithful model of `ORDER BY date`).
* `date LIKE '<month>%'` is modelled as a literal string prefix match
  (`likeMatches`), the semantics the patterns of this app (digit/dash
  month strings) have under SQLite `LIKE`.
* String primitives of the source (`substr`, `str.lower`, `str.capitalize`,
  prefix tests) are modelled on the character list `String.data`.
* A CSV document is modelled at row granularity as `List (List String)`:
  the exact list of rows handed to `csv.writer.writerow`, each row the list
  of its cells.  (Cell quoting/escaping is the Python `csv` library's
  concern and round-trips rows verbatim.)
-/

/-- One persisted row of the `transactions` table (`src/app.py` lines 12-19):
`id INTEGER PRIMARY KEY AUTOINCREMENT`, then description, amount, type,
category, date.  `created_at` is never read by the code and is omitted. -/
structure Tx where
  id : Nat
  description : String
  amount : ℚ
  type : String
  category : String
  date : String
deriving DecidableEq

/-- The persistent store: the table rows plus the AUTOINCREMENT counter
(SQLite hands out `lastrowid` values monotonically and never reuses them). -/
structure Store where
  nextId : Nat
  rows : List Tx
deriving DecidableEq

/-! ### String primitives, modelled on `String.data` -/

/-- Byte-order `≤` on character lists: the SQLite BINARY collation used by
`ORDER BY date` and `ORDER BY month`. -/
def charsLe : List Char → List Char → Bool
  | [], _ => true
  | _ :: _, [] => false
  | a :: as, b :: bs =>
    a.toNat < b.toNat || (a.toNat == b.toNat && charsLe as bs)

/-- String comparison used to model SQL `ORDER BY` on text columns. -/
def strLeB (a b : String) : Bool := charsLe a.data b.data

/-- `substr(date, 1, 7)` of the monthly-trend query: the first seven
characters. -/
def take7 (s : String) : String := ⟨s.data.take 7⟩

/-- Python `str.lower()` (ASCII case folding, all the app passes it). -/
def pyLower (s : String) : String := ⟨s.data.map Char.toLower⟩

/-- Python `str.capitalize()`: first character upper-cased, the rest
lower-cased (used for the single-column CSV transaction lines). -/
def pyCapitalize (s : String) : String :=
  match s.data with
  | [] => ""
  | c :: cs => ⟨Char.toUpper c :: cs.map Char.toLower⟩

/-- Truthiness of a Python string (`if month:` in `download_csv`). -/
def pyTruthyStr (s : String) : Bool := !s.data.isEmpty

/-- `date LIKE '<m>%'`: a literal string prefix match, the semantics the
app's wildcard-free month patterns have under SQLite `LIKE`. -/
def likeMatches (m date : String) : Bool := m.data.isPrefixOf date.data

/-! ### Python dicts with numeric values -/

/-- Python dict assignment `d[k] = v`: overwrite in place when the key is
present, else append (insertion order preserved). -/
def dictSet (d : List (String × ℚ)) (k : String) (v : ℚ) : List (String × ℚ) :=
  if d.any (fun p => p.1 == k) then
    d.map (fun p => if p.1 == k then (k, v) else p)
  else d ++ [(k, v)]

/-- Python `d.get(k)` (no default). -/
def dictGet? (d : List (String × ℚ)) (k : String) : Option ℚ :=
  (d.find? (fun p => p.1 == k)).map (fun p => p.2)

/-- Python `d.get(k, dflt)`. -/
def dictGet (d : List (String × ℚ)) (k : String) (dflt : ℚ) : ℚ :=
  (dictGet? d k).getD dflt

/-! ### Aggregation helpers shared by the SQL queries -/

/-- `SUM(amount)` over a list of rows. -/
def sumAmounts (l : List Tx) : ℚ := (l.map (fun t => t.amount)).sum

/-- The distinct `type` values of a row set (the groups of
`GROUP BY type`). -/
def typesOf (l : List Tx) : List String := (l.map (fun t => t.type)).dedup

/-- `SELECT type, SUM(amount) ... GROUP BY type`: one `(type, sum)` row per
distinct type. -/
def typeSums (l : List Tx) : List (String × ℚ) :=
  (typesOf l).map (fun ty => (ty, sumAmounts (l.filter (fun t => t.type == ty))))

/-! ### Statistics engine (`get_statistics`, `src/app.py` lines 94-129) -/

/-- One entry of the `monthly` trend series: the dict
`{'month': m, 'income': 0, 'expense': 0}` whose numeric fields are then
assigned per type (lines 117-121). -/
structure MonthlyEntry where
  month : String
  fields : List (String × ℚ)
deriving DecidableEq

/-- The distinct 7-character date prefixes of the whole table, ascending:
the groups of `GROUP BY month ... ORDER BY month` (line 115-116). -/
def monthsOf (txs : List Tx) : List String :=
  List.insertionSort (fun a b => strLeB a b = true)
    ((txs.map (fun t => take7 t.date)).dedup)

/-- The `monthly` dict entry of one month prefix: initialised with income
and expense 0, then each type group of that month assigns its sum. -/
def entryFor (txs : List Tx) (m : String) : MonthlyEntry :=
  { month := m
    fields :=
      (typeSums (txs.filter (fun t => take7 t.date == m))).foldl
        (fun d p => dictSet d p.1 p.2) [("income", 0), ("expense", 0)] }

/-- `list(monthly.values())`: one entry per distinct month prefix of the
full table, in ascending month order (the dict is populated from rows
ordered by month). -/
def monthlyOf (txs : List Tx) : List MonthlyEntry :=
  (monthsOf txs).map (entryFor txs)

/-- `totals` of `get_statistics` (lines 99-103): start from
`{'income': 0, 'expense': 0}` and assign each `(type, SUM(amount))` group
row of the month-filtered table. -/
def totalsOf (l : List Tx) : List (String × ℚ) :=
  (typeSums l).foldl (fun d p => dictSet d p.1 p.2) [("income", 0), ("expense", 0)]

/-- `categories` (lines 105-108): `(category, SUM(amount))` per distinct
category over the month-filtered expense rows. -/
def categoriesOf (l : List Tx) : List (String × ℚ) :=
  let e := l.filter (fun t => t.type == "expense")
  ((e.map (fun t => t.category)).dedup).map
    (fun c => (c, sumAmounts (e.filter (fun t => t.category == c))))

/-- `daily` (lines 110-113): `(date, SUM(amount))` per distinct date over
the month-filtered expense rows, ascending by date. -/
def dailyOf (l : List Tx) : List (String × ℚ) :=
  let e := l.filter (fun t => t.type == "expense")
  (List.insertionSort (fun a b => strLeB a b = true)
      ((e.map (fun t => t.date)).dedup)).map
    (fun d => (d, sumAmounts (e.filter (fun t => t.date == d))))

/-- The response payload of `GET /api/statistics/<month>`. -/
structure Stats where
  totals : List (String × ℚ)
  categories : List (String × ℚ)
  daily : List (String × ℚ)
  monthly : List MonthlyEntry
deriving DecidableEq

/-- `get_statistics(month)` (lines 94-129): every per-month part filters by
`date LIKE '<month>%'`; the `monthly` series is computed over the whole
table. -/
def get_statistics (month : String) (txs : List Tx) : Stats :=
  let matched := txs.filter (fun t => likeMatches month t.date)
  { totals := totalsOf matched
    categories := categoriesOf matched
    daily := dailyOf matched
    monthly := monthlyOf txs }

/-! ### Two-decimal formatting (Python `f'{x:.2f}'`) -/

/-- Round `100 * q` to the nearest integer, ties to even: the rounding
`:.2f` applies to the (exactly represented) rational value. -/
def roundHalfEven100 (q : ℚ) : Int :=
  let x : ℚ := 100 * q
  let f : Int := Int.fdiv x.num x.den
  let r : Int := x.num - f * x.den
  if 2 * r < (x.den : Int) then f
  else if (x.den : Int) < 2 * r then f + 1
  else if f % 2 = 0 then f else f + 1

/-- Python `f'{q:.2f}'`: fixed two-decimal rendering of a rational. -/
def format2dp (q : ℚ) : String :=
  let n := roundHalfEven100 q
  let m := n.natAbs
  let sign := if n < 0 then "-" else ""
  let fp := m % 100
  sign ++ toString (m / 100) ++ "." ++ (if fp < 10 then "0" else "") ++ toString fp

/-! ### CSV exporter (`download_csv`, `src/app.py` lines 132-233) -/

/-- The month-filter step (lines 145-156): when the `month` query parameter
is present and truthy, keep the rows whose date matches
`LIKE '<month>%'`; otherwise take the whole table. -/
def filteredTxs (txs : List Tx) (month : Option String) : List Tx :=
  match month with
  | some m => if pyTruthyStr m then txs.filter (fun t => likeMatches m t.date) else txs
  | none => txs

/-- `ORDER BY date ASC`. -/
def txLe (a b : Tx) : Prop := strLeB a.date b.date = true

/-- `ORDER BY date DESC`. -/
def txGe (a b : Tx) : Prop := strLeB b.date a.date = true

instance : DecidableRel txLe := fun a b => by unfold txLe; infer_instance

instance : DecidableRel txGe := fun a b => by unfold txGe; infer_instance

/-- Whether `order` selects descending output (lines 142-143):
`request.args.get('order', 'asc').lower() == 'desc'`. -/
def orderIsDesc (ord : Option String) : Bool :=
  pyLower (ord.getD "asc") == "desc"

/-- The `ORDER BY date {order_clause}` step applied to the filtered rows. -/
def orderTxs (ord : Option String) (l : List Tx) : List Tx :=
  if orderIsDesc ord then List.insertionSort txGe l else List.insertionSort txLe l

/-- The totals loop of `download_csv` (lines 164-172): start from
`{'income': 0.0, 'expense': 0.0}`; every `(type, SUM(amount))` group row is
assigned under its own key (both branches of the `if` do the same
assignment; the sum of a nonempty group of `NOT NULL` amounts is never
`NULL`, so `row[1] or 0.0` is the sum itself). -/
def csvTotals (l : List Tx) : List (String × ℚ) :=
  (typeSums l).foldl (fun d p => dictSet d p.1 p.2) [("income", 0), ("expense", 0)]

/-- `balance = totals.get('income', 0.0) - totals.get('expense', 0.0)`
(line 180), over the rows selected by the month filter. -/
def csvBalance (txs : List Tx) (month : Option String) : ℚ :=
  let totals := csvTotals (filteredTxs txs month)
  dictGet totals "income" 0 - dictGet totals "expense" 0

/-- The multi-column header row (lines 200-202). -/
def csvHeader : List String :=
  ["ID", "Description", "Amount", "Type", "Category", "Date",
   "Total Income", "Total Expense", "Balance"]

/-- One multi-column transaction row (line 221): the six column values with
the amount rendered to two decimals, then the three empty summary cells. -/
def txRow (t : Tx) : List String :=
  [toString t.id, t.description, format2dp t.amount, t.type, t.category, t.date,
   "", "", ""]

/-- One single-column transaction line (line 194). -/
def txLine (t : Tx) : String :=
  "ID:" ++ toString t.id ++ " | " ++ t.description ++ " | " ++
    pyCapitalize t.type ++ " " ++ format2dp t.amount ++ " | Category: " ++
    t.category ++ " | Date: " ++ t.date

/-- `download_csv` (lines 132-233): the list of rows written to the CSV
document, for the given table, optional `month` and `order` query
parameters, and `single` layout flag. -/
def download_csv (txs : List Tx) (month : Option String) (ord : Option String)
    (single : Bool) : List (List String) :=
  let sel := filteredTxs txs month
  let transactions := orderTxs ord sel
  let totals := csvTotals sel
  let income := dictGet totals "income" 0
  let expense := dictGet totals "expense" 0
  let balance := income - expense
  if single then
    [["Data"],
     ["Total Income: " ++ format2dp income ++ " | Total Expense: " ++
        format2dp expense ++ " | Balance: " ++ format2dp balance],
     [""]] ++
    (if transactions.isEmpty then [["No transactions"]]
     else transactions.map (fun t => [txLine t]))
  else
    [csvHeader,
     ["", "", "", "", "", "", format2dp income, format2dp expense, format2dp balance]] ++
    (if transactions.isEmpty then
       [["", "No transactions", "", "", "", "",
         format2dp income, format2dp expense, format2dp balance]]
     else transactions.map txRow)

/-! ### JSON request model and the insert/delete endpoints -/

/-- A JSON value as delivered by `request.get_json` (the object fields of
the request body: null, boolean, number or string). -/
inductive JVal
  | jnull
  | jbool (b : Bool)
  | jnum (q : ℚ)
  | jstr (s : String)
deriving DecidableEq

/-- Python `data.get(k)`: `None` both when the key is absent and when the
field holds JSON `null` (the two are indistinguishable to the handler). -/
def jget (d : List (String × JVal)) (k : String) : Option JVal :=
  match (d.find? (fun p => p.1 == k)).map (fun p => p.2) with
  | some JVal.jnull => none
  | v => v

/-- Python truthiness of a `data.get` result: `None`, `False`, `0`, `''`
and empty containers are falsy. -/
def truthy : Option JVal → Bool
  | none => false
  | some .jnull => false
  | some (.jbool b) => b
  | some (.jnum q) => !(q == 0)
  | some (.jstr s) => !s.data.isEmpty

/-- Decimal digits of a string, as a number: `none` unless the characters
are one or more ASCII digits. -/
def parseNatChars (cs : List Char) : Option Nat :=
  if cs.isEmpty || !(cs.all (fun c => c.isDigit)) then none
  else some (cs.foldl (fun a c => a * 10 + (c.toNat - 48)) 0)

/-- Plain decimal number parsing (`"12"`, `"4.50"`, `"-0.12"`), used to
read exported two-decimal amounts back in the CSV round trip. -/
def parseDec (s : String) : Option ℚ :=
  let unsigned : List Char → Option ℚ := fun cs =>
    match cs.splitOn '.' with
    | [ip] => (parseNatChars ip).map (fun n => (n : ℚ))
    | [ip, fp] =>
      match parseNatChars ip, parseNatChars fp with
      | some a, some b => some ((a : ℚ) + (b : ℚ) / (10 : ℚ) ^ fp.length)
      | _, _ => none
    | _ => none
  match s.data with
  | '-' :: rest => (unsigned rest).map (fun q => -q)
  | l => unsigned l

/-- The result of Python `float(x)`: a finite value (idealised as an exact
rational, per the `ℚ`-for-REAL convention), an infinity, or NaN. -/
inductive PyFloat
  | finite (q : ℚ)
  | posInf
  | negInf
  | nan
deriving DecidableEq

/-- Negation of a `float` result (a leading `'-'` in the parsed string). -/
def PyFloat.negate : PyFloat → PyFloat
  | .finite q => .finite (-q)
  | .posInf => .negInf
  | .negInf => .posInf
  | .nan => .nan

/-- The ASCII whitespace that `float()` strips from a string argument. -/
def isPySpace (c : Char) : Bool :=
  c == ' ' || c == '\t' || c == '\n' || c == '\r' || c == '\x0b' || c == '\x0c'

/-- Strip leading and trailing whitespace, as `float()` does. -/
def pyStrip (cs : List Char) : List Char :=
  ((cs.dropWhile isPySpace).reverse.dropWhile isPySpace).reverse

/-- Remove the PEP-515 digit-group underscores of a numeric string:
every `'_'` must sit between two digits (`"1_000"` is legal, `"1__0"`,
`"_1"`, `"1_"`, `"1_.5"` are not); `prev` is the character before the
rest of the input. -/
def remUnderscores (prev : Option Char) : List Char → Option (List Char)
  | [] => some []
  | c :: cs =>
    if c = '_' then
      match prev, cs with
      | some p, d :: _ =>
        if p.isDigit && d.isDigit then remUnderscores (some c) cs else none
      | _, _ => none
    else (remUnderscores (some c) cs).map (fun l => c :: l)

/-- The value of a (possibly empty) run of ASCII digits; `none` when a
non-digit appears. -/
def digitsVal (cs : List Char) : Option Nat :=
  if cs.all (fun c => c.isDigit) then
    some (cs.foldl (fun a c => a * 10 + (c.toNat - 48)) 0)
  else none

/-- The body of `float()`'s string grammar, after whitespace, underscores
and an optional sign have been handled: case-insensitive `inf`, `infinity`
or `nan`, or `[digits] [. [digits]] [(e|E) [sign] digits]` with at least
one mantissa digit.  The value is assembled in integer arithmetic and
produced as one exact rational. -/
def pyFloatCore (cs : List Char) : Option PyFloat :=
  let ls := cs.map Char.toLower
  if ls = "inf".data || ls = "infinity".data then some PyFloat.posInf
  else if ls = "nan".data then some PyFloat.nan
  else
    let mant := cs.takeWhile (fun c => !(c == 'e' || c == 'E'))
    let rest := cs.dropWhile (fun c => !(c == 'e' || c == 'E'))
    let expVal : Option Int :=
      match rest with
      | [] => some 0
      | _ :: ex =>
        match ex with
        | '+' :: ds =>
          if ds.isEmpty then none else (digitsVal ds).map (fun n => (n : Int))
        | '-' :: ds =>
          if ds.isEmpty then none else (digitsVal ds).map (fun n => -(n : Int))
        | ds =>
          if ds.isEmpty then none else (digitsVal ds).map (fun n => (n : Int))
    let mantVal : Option (Nat × Nat) :=
      match mant.splitOn '.' with
      | [ip] => if ip.isEmpty then none else (digitsVal ip).map (fun n => (n, 0))
      | [ip, fp] =>
        if ip.isEmpty && fp.isEmpty then none
        else
          match digitsVal ip, digitsVal fp with
          | some a, some b => some (a * 10 ^ fp.length + b, fp.length)
          | _, _ => none
      | _ => none
    match mantVal, expVal with
    | some (n, scale), some e =>
      let t : Int := e - (scale : Int)
      if 0 ≤ t then some (PyFloat.finite ((n * 10 ^ t.toNat : Nat) : ℚ))
      else some (PyFloat.finite (Rat.divInt (n : Int) ((10 ^ (-t).toNat : Nat) : Int)))
    | _, _ => none

/-- Python `float(s)` on a string: strip whitespace, validate and drop
underscores, take an optional sign, then `pyFloatCore`.  Accepts e.g.
`"1e5"`, `"+5"`, `" 5 "`, `"1_000"`, `".5"`, `"5."`, `"-1.5E-3"`,
`"inf"`, `"Infinity"`, `"nan"`; rejects `""`, `"."`, `"e5"`, `"5e"`,
`"1__0"`, `"+ 5"`, `"5 5"`.  Values are exact rationals: IEEE rounding
and the double range (overflow to an infinity for huge literals) are
idealised away, per the `ℚ`-for-REAL convention. -/
def pyFloatOfString (s : String) : Option PyFloat :=
  match remUnderscores none (pyStrip s.data) with
  | none => none
  | some cs =>
    match cs with
    | '+' :: rest => pyFloatCore rest
    | '-' :: rest => (pyFloatCore rest).map PyFloat.negate
    | rest => pyFloatCore rest

/-- Python `float(x)` on a JSON value (`src/app.py` line 65): numbers pass
through, booleans convert to 0/1, strings go through `float()`'s string
grammar, everything else raises (`ValueError`/`TypeError`). -/
def toFloat? : JVal → Option PyFloat
  | .jnum q => some (.finite q)
  | .jbool b => some (.finite (if b then 1 else 0))
  | .jstr s => pyFloatOfString s
  | .jnull => none

/-- The REAL value the store keeps for a successfully inserted amount.
SQLite stores the IEEE infinities as REAL; they exceed every rational, so
this exact-rational model records `±10 ^ 999` (compare SQLite's own text
rendering `9.0e+999`) as their stand-ins — no theorem examines these
values.  NaN never reaches this function: binding NaN stores NULL, which
the `NOT NULL` column rejects before a row exists. -/
def storedReal : PyFloat → ℚ
  | .finite q => q
  | .posInf => ((10 ^ 999 : Nat) : ℚ)
  | .negInf => -((10 ^ 999 : Nat) : ℚ)
  | .nan => 0

/-- The smallest `e ≤ fuel` with `den ∣ 10 ^ e` (so `num / den` has an
exact decimal expansion with `e` fraction digits), if any. -/
def decExpFuel : Nat → Nat → Nat → Option Nat
  | 0, _, _ => none
  | fuel + 1, den, e => if 10 ^ e % den = 0 then some e else decExpFuel fuel den (e + 1)

/-- The text a `TEXT`-affinity column stores for a bound value: strings
verbatim, numbers as their decimal rendering (exact for the
power-of-ten-denominator rationals JSON literals produce; `JVal` does not
distinguish the JSON integer 5 from the float 5.0, both render `"5"`).
Only the string case is reachable from the claims' theorems. -/
def asText : JVal → String
  | .jstr s => s
  | .jnum q =>
    if q.den = 1 then toString q.num
    else
      match decExpFuel (q.den + 1) q.den 0 with
      | some e =>
        let scaled := q.num.natAbs * 10 ^ e / q.den
        let fs := toString (scaled % 10 ^ e)
        (if q.num < 0 then "-" else "") ++ toString (scaled / 10 ^ e) ++ "." ++
          ⟨List.replicate (e - fs.data.length) '0' ++ fs.data⟩
      | none => toString q.num ++ "/" ++ toString q.den
  | .jbool b => if b then "1" else "0"
  | .jnull => ""

/-- The JSON response of `POST /api/transactions`: either
`{'id': ..., 'success': True}` or `{'success': False, 'error': ...}` with
HTTP 400. -/
inductive AddResp
  | ok (id : Nat)
  | err (msg : String)
deriving DecidableEq

/-- Is the response the HTTP 400 error form? -/
def AddResp.isErr : AddResp → Bool
  | .ok _ => false
  | .err _ => true

/-- `add_transaction` (`src/app.py` lines 47-83).  `body` is the parsed
request body (`none` when `request.get_json(force=True, silent=True)`
returns `None` for a missing/unparseable body).  A NaN amount passes
`float()` but is bound as NULL (SQLite has no NaN representation), so the
`NOT NULL` amount column raises `sqlite3.IntegrityError` deterministically;
`integrityFails` models any other `sqlite3.IntegrityError` the store
raises.  Either way the write is rolled back and the handler answers
HTTP 400. -/
def add_transaction (body : Option (List (String × JVal))) (integrityFails : Bool)
    (s : Store) : Store × AddResp :=
  match body with
  | none => (s, .err "Invalid JSON payload")
  | some data =>
    if data.isEmpty then (s, .err "Invalid JSON payload")
    else
      let description := jget data "description"
      let amount := jget data "amount"
      let ttype := jget data "type"
      let category := jget data "category"
      let date := jget data "date"
      if !truthy description || amount.isNone || !truthy ttype || !truthy date then
        (s, .err "Missing required fields")
      else
        match amount.bind toFloat? with
        | none => (s, .err "Invalid amount")
        | some pf =>
          if pf == PyFloat.nan || integrityFails then (s, .err "IntegrityError")
          else
            let catText := if truthy category then asText (category.getD .jnull) else ""
            ({ nextId := s.nextId + 1
               rows := s.rows ++
                 [{ id := s.nextId
                    description := asText (description.getD .jnull)
                    amount := storedReal pf
                    type := asText (ttype.getD .jnull)
                    category := catText
                    date := asText (date.getD .jnull) }] },
             .ok s.nextId)

/-- `delete_transaction` (`src/app.py` lines 85-92): delete every row with
the given id; the response is always `{'success': True}`. -/
def delete_transaction (s : Store) (i : Nat) : Store × Bool :=
  ({ s with rows := s.rows.filter (fun t => !(t.id == i)) }, true)

/-- `listAll` / `GET /api/transactions` (lines 29-45):
`SELECT * FROM transactions ORDER BY date DESC`. -/
def listAll (s : Store) : List Tx := List.insertionSort txGe s.rows

/-- Reading one multi-column CSV transaction row back into a
`(id, description, amount, type, category, date)` tuple: the row must have
the six transaction cells followed by three empty summary cells, with a
numeric id and a decimal amount. -/
def rowToTuple (r : List String) : Option (Nat × String × ℚ × String × String × String) :=
  match r with
  | [i, d, a, ty, c, dt, x, y, z] =>
    if x = "" ∧ y = "" ∧ z = "" then
      match parseNatChars i.data, parseDec a with
      | some n, some q => some (n, d, q, ty, c, dt)
      | _, _ => none
    else none
  | _ => none

/-! ### Dictionary lemmas -/

theorem find?_mapUpdate_ne (d : List (String × ℚ)) (k k' : String) (v : ℚ)
    (h : k' ≠ k) :
    (d.map (fun p => if p.1 == k then (k, v) else p)).find? (fun p => p.1 == k') =
      d.find? (fun p => p.1 == k') := by
  induction d with
  | nil => rfl
  | cons p rest ih =>
    rw [List.map_cons]
    by_cases hp : (p.1 == k) = true
    · have hk : p.1 = k := by simpa using hp
      have h1 : (k == k') = false := beq_eq_false_iff_ne.mpr (fun e => h e.symm)
      have h2 : (p.1 == k') = false := by rw [hk]; exact h1
      rw [if_pos hp]
      simp only [List.find?_cons, h1, h2, ih]
    · rw [if_neg hp]
      cases hq : (p.1 == k') <;> simp only [List.find?_cons, hq, ih]

theorem find?_mapUpdate_self (d : List (String × ℚ)) (k : String) (v : ℚ)
    (h : d.any (fun p => p.1 == k) = true) :
    (d.map (fun p => if p.1 == k then (k, v) else p)).find? (fun p => p.1 == k) =
      some (k, v) := by
  induction d with
  | nil => simp at h
  | cons p rest ih =>
    rw [List.map_cons]
    by_cases hp : (p.1 == k) = true
    · rw [if_pos hp]
      simp only [List.find?_cons, beq_self_eq_true]
    · simp only [List.any_cons, hp, Bool.false_or] at h
      rw [if_neg hp]
      have hp' : (p.1 == k) = false := by simpa using hp
      simp only [List.find?_cons, hp', ih h]

theorem dictGet?_dictSet_self (d : List (String × ℚ)) (k : String) (v : ℚ) :
    dictGet? (dictSet d k v) k = some v := by
  unfold dictSet dictGet?
  by_cases h : d.any (fun p => p.1 == k) = true
  · rw [if_pos h, find?_mapUpdate_self d k v h]
    rfl
  · have hnone : d.find? (fun p => p.1 == k) = none := by
      rw [List.find?_eq_none]
      intro p hp hpk
      exact h (List.any_eq_true.mpr ⟨p, hp, hpk⟩)
    rw [if_neg h, List.find?_append, hnone]
    simp only [Option.none_or, List.find?_cons, beq_self_eq_true]
    rfl

theorem dictGet?_dictSet_ne (d : List (String × ℚ)) (k k' : String) (v : ℚ)
    (h : k' ≠ k) : dictGet? (dictSet d k v) k' = dictGet? d k' := by
  unfold dictSet dictGet?
  by_cases hany : d.any (fun p => p.1 == k) = true
  · rw [if_pos hany, find?_mapUpdate_ne d k k' v h]
  · have h1 : (k == k') = false := beq_eq_false_iff_ne.mpr (fun e => h e.symm)
    rw [if_neg hany, List.find?_append]
    cases hfind : d.find? (fun p => p.1 == k') <;>
      simp [hfind, Option.or, List.find?, h1]

theorem dictGet?_setFold_not_mem (ps : List (String × ℚ)) (d : List (String × ℚ))
    (k : String) (h : ∀ p ∈ ps, p.1 ≠ k) :
    dictGet? (ps.foldl (fun acc p => dictSet acc p.1 p.2) d) k = dictGet? d k := by
  induction ps generalizing d with
  | nil => rfl
  | cons p rest ih =>
    simp only [List.foldl_cons]
    rw [ih _ (fun q hq => h q (List.mem_cons_of_mem _ hq))]
    exact dictGet?_dictSet_ne d p.1 k p.2 (fun e => h p (List.mem_cons_self _ _) e.symm)

theorem dictGet?_setFold_mem (ps : List (String × ℚ)) (d : List (String × ℚ))
    (k : String) (v : ℚ) (hnd : (ps.map Prod.fst).Nodup) (hm : (k, v) ∈ ps) :
    dictGet? (ps.foldl (fun acc p => dictSet acc p.1 p.2) d) k = some v := by
  induction ps generalizing d with
  | nil => cases hm
  | cons p rest ih =>
    simp only [List.map_cons, List.nodup_cons] at hnd
    simp only [List.foldl_cons]
    rcases List.mem_cons.mp hm with heq | htail
    · have hp1 : p.1 = k := by rw [← heq]
      have hp2 : p.2 = v := by rw [← heq]
      rw [dictGet?_setFold_not_mem rest _ k
        (fun q hq e => (hp1 ▸ hnd.1) (List.mem_map.mpr ⟨q, hq, e⟩))]
      rw [hp1, hp2]
      exact dictGet?_dictSet_self d k v
    · exact ih (dictSet d p.1 p.2) hnd.2 htail

/-! ### Characterising the totals dictionaries -/

theorem typeSums_keys (l : List Tx) : (typeSums l).map Prod.fst = typesOf l := by
  unfold typeSums
  rw [List.map_map]
  simp [Function.comp_def]

theorem typeSums_keys_nodup (l : List Tx) : ((typeSums l).map Prod.fst).Nodup := by
  rw [typeSums_keys]
  exact List.nodup_dedup _

theorem mem_typesOf (l : List Tx) (ty : String) :
    ty ∈ typesOf l ↔ ∃ t ∈ l, t.type = ty := by
  simp [typesOf, List.mem_dedup, List.mem_map]

theorem mem_typeSums (l : List Tx) (ty : String) (h : ty ∈ typesOf l) :
    (ty, sumAmounts (l.filter (fun t => t.type == ty))) ∈ typeSums l :=
  List.mem_map.mpr ⟨ty, h, rfl⟩

theorem totalsOf_get? (l : List Tx) (ty : String) (h : ty ∈ typesOf l) :
    dictGet? (totalsOf l) ty = some (sumAmounts (l.filter (fun t => t.type == ty))) :=
  dictGet?_setFold_mem _ _ _ _ (typeSums_keys_nodup l) (mem_typeSums l ty h)

theorem totalsOf_get?_not_mem (l : List Tx) (ty : String) (h : ty ∉ typesOf l) :
    dictGet? (totalsOf l) ty = dictGet? [("income", 0), ("expense", 0)] ty := by
  refine dictGet?_setFold_not_mem _ _ _ (fun p hp e => h ?_)
  rw [← typeSums_keys]
  exact e ▸ List.mem_map_of_mem Prod.fst hp

theorem totalsOf_get_std (l : List Tx) (ty : String)
    (hty : ty = "income" ∨ ty = "expense") :
    dictGet (totalsOf l) ty 0 = sumAmounts (l.filter (fun t => t.type == ty)) := by
  by_cases h : ty ∈ typesOf l
  · rw [dictGet, totalsOf_get? l ty h]
    rfl
  · have hfilter : l.filter (fun t => t.type == ty) = [] := by
      rw [List.filter_eq_nil_iff]
      intro t ht hte
      exact h ((mem_typesOf l ty).mpr ⟨t, ht, by simpa using hte⟩)
    rw [dictGet, totalsOf_get?_not_mem l ty h, hfilter]
    rcases hty with rfl | rfl <;> rfl

theorem csvTotals_eq_totalsOf (l : List Tx) : csvTotals l = totalsOf l := rfl

/-! ### The month filter -/

theorem isPrefixOf_nil_left (l : List Char) : ([] : List Char).isPrefixOf l = true := by
  cases l <;> rfl

theorem likeMatches_of_nil (m d : String) (h : m.data = []) :
    likeMatches m d = true := by
  unfold likeMatches
  rw [h]
  exact isPrefixOf_nil_left _

theorem filteredTxs_some (txs : List Tx) (month : String) :
    filteredTxs txs (some month) = txs.filter (fun t => likeMatches month t.date) := by
  have hdef : filteredTxs txs (some month) =
      if pyTruthyStr month = true then txs.filter (fun t => likeMatches month t.date)
      else txs := rfl
  rw [hdef]
  by_cases h : pyTruthyStr month = true
  · rw [if_pos h]
  · have hdata : month.data = [] := by
      have := (Bool.not_eq_true _).mp h
      simpa [pyTruthyStr, List.isEmpty_iff] using this
    rw [if_neg h]
    exact (List.filter_eq_self.mpr
      (fun t _ => likeMatches_of_nil month t.date hdata)).symm

/-! ### Claim C1 -/

/-- C1: for every stored set of transactions and every month filter string,
`totals.income - totals.expense` computed by the statistics engine for that
month equals the `balance` computed by the CSV exporter over the same
month-prefix filter. -/
theorem statistics_diff_eq_csv_balance (txs : List Tx) (month : String) :
    dictGet (get_statistics month txs).totals "income" 0 -
      dictGet (get_statistics month txs).totals "expense" 0 =
    csvBalance txs (some month) := by
  unfold csvBalance
  rw [csvTotals_eq_totalsOf, filteredTxs_some]
  rfl

/-! ### Claim C5 -/

/-- C5: for every month argument, statistics `totals` maps `"income"` and
`"expense"` to the sums of amounts of the month-matching transactions of
that type (0 when none exist), any other type string present in the matched
data appears under its own key with its sum, and when no transactions match,
`totals` is `{income: 0, expense: 0}` and `categories` and `daily` are
empty. -/
theorem statistics_totals_spec (txs : List Tx) (month : String) :
    (dictGet (get_statistics month txs).totals "income" 0 =
      sumAmounts ((txs.filter (fun t => likeMatches month t.date)).filter
        (fun t => t.type == "income"))) ∧
    (dictGet (get_statistics month txs).totals "expense" 0 =
      sumAmounts ((txs.filter (fun t => likeMatches month t.date)).filter
        (fun t => t.type == "expense"))) ∧
    (∀ ty : String,
      (∃ t ∈ txs.filter (fun t => likeMatches month t.date), t.type = ty) →
      dictGet? (get_statistics month txs).totals ty =
        some (sumAmounts ((txs.filter (fun t => likeMatches month t.date)).filter
          (fun t => t.type == ty)))) ∧
    (txs.filter (fun t => likeMatches month t.date) = [] →
      (get_statistics month txs).totals = [("income", 0), ("expense", 0)] ∧
      (get_statistics month txs).categories = [] ∧
      (get_statistics month txs).daily = []) := by
  refine ⟨?_, ?_, ?_, ?_⟩
  · exact totalsOf_get_std _ "income" (Or.inl rfl)
  · exact totalsOf_get_std _ "expense" (Or.inr rfl)
  · intro ty hty
    exact totalsOf_get? _ ty ((mem_typesOf _ ty).mpr hty)
  · intro hnil
    have ht : (get_statistics month txs).totals =
        totalsOf (txs.filter (fun t => likeMatches month t.date)) := rfl
    have hc : (get_statistics month txs).categories =
        categoriesOf (txs.filter (fun t => likeMatches month t.date)) := rfl
    have hd : (get_statistics month txs).daily =
        dailyOf (txs.filter (fun t => likeMatches month t.date)) := rfl
    rw [ht, hc, hd, hnil]
    exact ⟨rfl, rfl, rfl⟩

/-- Witness for C5 at concrete inputs: an expense type key carries its sum,
and the no-match shape is the zero/empty one. -/
theorem statistics_totals_spec_witness :
    dictGet? (get_statistics "2024-03"
        [⟨1, "Coffee", 5, "expense", "Food", "2024-03-05"⟩]).totals "expense" =
      some (sumAmounts (([⟨1, "Coffee", 5, "expense", "Food", "2024-03-05"⟩].filter
        (fun t => likeMatches "2024-03" t.date)).filter
          (fun t => t.type == "expense"))) ∧
    ((get_statistics "2024-03" ([] : List Tx)).totals = [("income", 0), ("expense", 0)] ∧
     (get_statistics "2024-03" ([] : List Tx)).categories = [] ∧
     (get_statistics "2024-03" ([] : List Tx)).daily = []) := by
  constructor
  · exact (statistics_totals_spec
      [⟨1, "Coffee", 5, "expense", "Food", "2024-03-05"⟩] "2024-03").2.2.1 "expense"
      ⟨⟨1, "Coffee", 5, "expense", "Food", "2024-03-05"⟩,
        by with_unfolding_all decide, rfl⟩
  · exact (statistics_totals_spec ([] : List Tx) "2024-03").2.2.2 rfl

/-! ### Claim C8 -/

/-- C8: for every id, `DELETE /api/transactions/{id}` responds
`{success: true}`, and afterwards `listAll()` contains no transaction with
that id — whether or not the id existed. -/
theorem delete_transaction_spec (s : Store) (i : Nat) :
    (delete_transaction s i).2 = true ∧
    ∀ t ∈ listAll (delete_transaction s i).1, t.id ≠ i := by
  constructor
  · rfl
  · intro t ht
    have hmem : t ∈ s.rows.filter (fun t => !(t.id == i)) :=
      (List.perm_insertionSort txGe _).mem_iff.mp ht
    have hkeep := (List.mem_filter.mp hmem).2
    simpa using hkeep

/-! ### Claim C9 -/

/-- C9: an otherwise-valid insert whose category is absent, null or falsy
succeeds and stores the empty string as the category; of the five body
fields only category is not required (a missing description, amount, type
or date is rejected). -/
theorem add_transaction_category_optional
    (d : List (String × JVal)) (s : Store)
    (hdesc : truthy (jget d "description") = true)
    (htype : truthy (jget d "type") = true)
    (hdate : truthy (jget d "date") = true)
    (hamt : ∃ q : ℚ, (jget d "amount").bind toFloat? = some (PyFloat.finite q))
    (hcat : truthy (jget d "category") = false) :
    (add_transaction (some d) false s).2 = AddResp.ok s.nextId ∧
    (add_transaction (some d) false s).1.rows.map (fun t => t.category) =
      s.rows.map (fun t => t.category) ++ [""] ∧
    (∀ (d' : List (String × JVal)) (i : Bool) (s' : Store),
      jget d' "description" = none ∨ jget d' "amount" = none ∨
        jget d' "type" = none ∨ jget d' "date" = none →
      ((add_transaction (some d') i s').2).isErr = true) := by
  have hne : d.isEmpty = false := by
    cases d with
    | nil =>
      rw [show jget [] "description" = none from rfl] at hdesc
      cases hdesc
    | cons p r => rfl
  obtain ⟨q, hq⟩ := hamt
  have hsome : (jget d "amount").isNone = false := by
    cases h : jget d "amount" with
    | none => rw [h] at hq; cases hq
    | some v => rfl
  have hnn : (PyFloat.finite q == PyFloat.nan) = false := by
    simp
  have hred : add_transaction (some d) false s =
      ({ nextId := s.nextId + 1
         rows := s.rows ++
           [{ id := s.nextId
              description := asText ((jget d "description").getD JVal.jnull)
              amount := q
              type := asText ((jget d "type").getD JVal.jnull)
              category := ""
              date := asText ((jget d "date").getD JVal.jnull) }] },
       AddResp.ok s.nextId) := by
    simp only [add_transaction, hne, Bool.false_eq_true, if_false, hdesc, htype,
      hdate, hsome, hcat, hq, hnn, storedReal, Bool.not_true, Bool.or_self,
      Bool.false_or, Bool.or_false, if_false]
  refine ⟨by rw [hred], by rw [hred]; simp, ?_⟩
  intro d' i s' habsent
  have herr : ∀ m : String, (AddResp.err m).isErr = true := fun _ => rfl
  by_cases hne' : d'.isEmpty = true
  · simp only [add_transaction, hne', if_true]
    exact herr _
  · have hne'' : d'.isEmpty = false := by
      cases h : d'.isEmpty with
      | true => exact absurd h hne'
      | false => rfl
    have hcond : (!truthy (jget d' "description") || (jget d' "amount").isNone ||
        !truthy (jget d' "type") || !truthy (jget d' "date")) = true := by
      rcases habsent with h | h | h | h <;> rw [h] <;>
        simp [show truthy none = false from rfl]
    simp only [add_transaction, hne'', Bool.false_eq_true, if_false, hcond, if_true]
    exact herr _

/-- Witness for C9: a concrete body without a category field inserts with
category `""`, and a body with no description is rejected. -/
theorem add_transaction_category_optional_witness :
    (add_transaction (some [("description", JVal.jstr "Lunch"), ("amount", JVal.jnum 5),
        ("type", JVal.jstr "expense"), ("date", JVal.jstr "2024-01-02")]) false
      ⟨1, []⟩).2 = AddResp.ok 1 ∧
    (add_transaction (some [("description", JVal.jstr "Lunch"), ("amount", JVal.jnum 5),
        ("type", JVal.jstr "expense"), ("date", JVal.jstr "2024-01-02")]) false
      ⟨1, []⟩).1.rows.map (fun t => t.category) = ([] : List Tx).map (fun t => t.category) ++ [""] ∧
    ((add_transaction (some ([("amount", JVal.jnum 5)] : List (String × JVal))) false
      ⟨1, []⟩).2).isErr = true := by
  have h := add_transaction_category_optional
    [("description", JVal.jstr "Lunch"), ("amount", JVal.jnum 5),
     ("type", JVal.jstr "expense"), ("date", JVal.jstr "2024-01-02")] ⟨1, []⟩
    (by with_unfolding_all decide) (by with_unfolding_all decide)
    (by with_unfolding_all decide) ⟨5, by with_unfolding_all decide⟩
    (by with_unfolding_all decide)
  exact ⟨h.1, h.2.1, h.2.2 [("amount", JVal.jnum 5)] false ⟨1, []⟩ (Or.inl rfl)⟩

/-! ### Claim C7 -/

/-- Counterexample to C7 as stated: a body whose four required fields are
all present (description is the empty string), whose amount converts, and
with no integrity failure, is still rejected with the HTTP 400 error
form. -/
theorem add_transaction_claim_counterexample :
    jget [("description", JVal.jstr ""), ("amount", JVal.jnum 5),
        ("type", JVal.jstr "expense"), ("date", JVal.jstr "2024-01-01")]
      "description" ≠ none ∧
    jget [("description", JVal.jstr ""), ("amount", JVal.jnum 5),
        ("type", JVal.jstr "expense"), ("date", JVal.jstr "2024-01-01")]
      "amount" ≠ none ∧
    jget [("description", JVal.jstr ""), ("amount", JVal.jnum 5),
        ("type", JVal.jstr "expense"), ("date", JVal.jstr "2024-01-01")]
      "type" ≠ none ∧
    jget [("description", JVal.jstr ""), ("amount", JVal.jnum 5),
        ("type", JVal.jstr "expense"), ("date", JVal.jstr "2024-01-01")]
      "date" ≠ none ∧
    ((jget [("description", JVal.jstr ""), ("amount", JVal.jnum 5),
        ("type", JVal.jstr "expense"), ("date", JVal.jstr "2024-01-01")]
      "amount").bind toFloat?).isSome = true ∧
    ((add_transaction (some [("description", JVal.jstr ""), ("amount", JVal.jnum 5),
        ("type", JVal.jstr "expense"), ("date", JVal.jstr "2024-01-01")])
      false ⟨1, []⟩).2).isErr = true := by
  with_unfolding_all decide

/-- C7 amended: the response is the HTTP 400 error form exactly when the
body is missing/unparseable or the empty object, or description, type or
date is missing or falsy, or amount is missing/null, or `float(amount)`
raises, or the converted amount is NaN (bound as NULL and rejected by the
`NOT NULL` column — a store integrity failure), or the store raises some
other integrity failure; otherwise the row is inserted (one new row
carrying the fresh id) and the response is `{id, success: true}` with that
id. -/
theorem add_transaction_amended (body : Option (List (String × JVal)))
    (integ : Bool) (s : Store) :
    (((add_transaction body integ s).2).isErr = true ↔
      (body = none ∨ ∃ d, body = some d ∧
        (d = [] ∨ truthy (jget d "description") = false ∨ jget d "amount" = none ∨
         truthy (jget d "type") = false ∨ truthy (jget d "date") = false ∨
         (jget d "amount").bind toFloat? = none ∨
         (jget d "amount").bind toFloat? = some PyFloat.nan ∨ integ = true))) ∧
    (((add_transaction body integ s).2).isErr = false →
      (add_transaction body integ s).2 = AddResp.ok s.nextId ∧
      (add_transaction body integ s).1.nextId = s.nextId + 1 ∧
      (add_transaction body integ s).1.rows.map (fun t => t.id) =
        s.rows.map (fun t => t.id) ++ [s.nextId]) := by
  match body with
  | none =>
    refine ⟨⟨fun _ => Or.inl rfl, fun _ => rfl⟩, fun h => ?_⟩
    cases h
  | some d =>
    by_cases h1 : d.isEmpty = true
    · have hd : d = [] := List.isEmpty_iff.mp h1
      subst hd
      refine ⟨⟨fun _ => Or.inr ⟨[], rfl, Or.inl rfl⟩, fun _ => rfl⟩, fun h => ?_⟩
      cases h
    · have hne : d.isEmpty = false := by
        cases h : d.isEmpty with
        | true => exact absurd h h1
        | false => rfl
      by_cases h2 : (!truthy (jget d "description") || (jget d "amount").isNone ||
          !truthy (jget d "type") || !truthy (jget d "date")) = true
      · have hred : add_transaction (some d) integ s =
            (s, AddResp.err "Missing required fields") := by
          simp only [add_transaction, hne, Bool.false_eq_true, if_false, h2, if_true]
        rw [hred]
        refine ⟨⟨fun _ => Or.inr ⟨d, rfl, ?_⟩, fun _ => rfl⟩, fun h => ?_⟩
        · rcases Bool.or_eq_true_iff.mp h2 with h' | h'
          · rcases Bool.or_eq_true_iff.mp h' with h'' | h''
            · rcases Bool.or_eq_true_iff.mp h'' with h3 | h3
              · exact Or.inr (Or.inl ((Bool.not_eq_true' _).mp h3))
              · exact Or.inr (Or.inr (Or.inl (Option.isNone_iff_eq_none.mp h3)))
            · exact Or.inr (Or.inr (Or.inr (Or.inl ((Bool.not_eq_true' _).mp h''))))
          · exact Or.inr (Or.inr (Or.inr (Or.inr (Or.inl ((Bool.not_eq_true' _).mp h')))))
        · cases h
      · have h2' : (!truthy (jget d "description") || (jget d "amount").isNone ||
            !truthy (jget d "type") || !truthy (jget d "date")) = false := by
          cases h : (!truthy (jget d "description") || (jget d "amount").isNone ||
              !truthy (jget d "type") || !truthy (jget d "date")) with
          | true => exact absurd h h2
          | false => rfl
        have hdesc : truthy (jget d "description") = true := by
          have := Bool.or_eq_false_iff.mp h2'
          have := Bool.or_eq_false_iff.mp this.1
          have := Bool.or_eq_false_iff.mp this.1
          simpa using this.1
        have hsome : (jget d "amount").isNone = false := by
          have := Bool.or_eq_false_iff.mp h2'
          have := Bool.or_eq_false_iff.mp this.1
          exact (Bool.or_eq_false_iff.mp this.1).2
        have htype : truthy (jget d "type") = true := by
          have := Bool.or_eq_false_iff.mp h2'
          have := Bool.or_eq_false_iff.mp this.1
          simpa using this.2
        have hdate : truthy (jget d "date") = true := by
          have := Bool.or_eq_false_iff.mp h2'
          simpa using this.2
        cases hamt : (jget d "amount").bind toFloat? with
        | none =>
          have hred : add_transaction (some d) integ s =
              (s, AddResp.err "Invalid amount") := by
            simp only [add_transaction, hne, Bool.false_eq_true, if_false, h2',
              hamt, if_true]
          rw [hred]
          refine ⟨⟨fun _ => Or.inr ⟨d, rfl, ?_⟩, fun _ => rfl⟩, fun h => ?_⟩
          · exact Or.inr (Or.inr (Or.inr (Or.inr (Or.inr (Or.inl hamt)))))
          · cases h
        | some pf =>
          by_cases hni : (pf == PyFloat.nan || integ) = true
          · have hred : add_transaction (some d) integ s =
                (s, AddResp.err "IntegrityError") := by
              simp only [add_transaction, hne, Bool.false_eq_true, if_false, h2',
                hamt, hni, if_true]
            rw [hred]
            refine ⟨⟨fun _ => Or.inr ⟨d, rfl, ?_⟩, fun _ => rfl⟩, fun h => ?_⟩
            · rcases Bool.or_eq_true_iff.mp hni with h' | h'
              · have hpf : pf = PyFloat.nan := by simpa using h'
                exact Or.inr (Or.inr (Or.inr (Or.inr (Or.inr (Or.inr
                  (Or.inl (hpf ▸ hamt)))))))
              · exact Or.inr (Or.inr (Or.inr (Or.inr (Or.inr (Or.inr
                  (Or.inr h'))))))
            · cases h
          · have hni' : (pf == PyFloat.nan || integ) = false := by
              cases h : (pf == PyFloat.nan || integ) with
              | true => exact absurd h hni
              | false => rfl
            have hpfn : (pf == PyFloat.nan) = false :=
              (Bool.or_eq_false_iff.mp hni').1
            have hinteg : integ = false := (Bool.or_eq_false_iff.mp hni').2
            subst hinteg
            have hred : add_transaction (some d) false s =
                ({ nextId := s.nextId + 1
                   rows := s.rows ++
                     [{ id := s.nextId
                        description := asText ((jget d "description").getD JVal.jnull)
                        amount := storedReal pf
                        type := asText ((jget d "type").getD JVal.jnull)
                        category :=
                          if truthy (jget d "category") = true then
                            asText ((jget d "category").getD JVal.jnull)
                          else ""
                        date := asText ((jget d "date").getD JVal.jnull) }] },
                 AddResp.ok s.nextId) := by
              simp only [add_transaction, hne, Bool.false_eq_true, if_false, h2',
                hamt, hpfn, Bool.or_false, Bool.false_eq_true]
            rw [hred]
            refine ⟨⟨fun h => ?_, fun h => ?_⟩, fun _ => ⟨rfl, rfl, by simp⟩⟩
            · cases h
            · rcases h with h | ⟨d', hd', hdisj⟩
              · cases h
              · have hdd : d' = d := by
                  injection hd' with h
                  exact h.symm
                subst hdd
                exfalso
                rcases hdisj with h | h | h | h | h | h | h | h
                · rw [h] at hne
                  cases hne
                · rw [hdesc] at h
                  cases h
                · rw [h] at hsome
                  cases hsome
                · rw [htype] at h
                  cases h
                · rw [hdate] at h
                  cases h
                · rw [h] at hamt
                  cases hamt
                · rw [h] at hamt
                  have h9 : PyFloat.nan = pf := by injection hamt
                  rw [← h9] at hpfn
                  simp at hpfn
                · cases h

/-- Witness for C7's amended statement at concrete bodies: a numeric
amount and the string amount `"1e5"` (which `float()` accepts) insert with
the fresh id, while the string amount `"nan"` is rejected. -/
theorem add_transaction_amended_witness :
    ((add_transaction (some [("description", JVal.jstr "Tea"), ("amount", JVal.jnum 3),
        ("type", JVal.jstr "expense"), ("date", JVal.jstr "2024-02-03")]) false
      ⟨1, []⟩).2 = AddResp.ok 1 ∧
    (add_transaction (some [("description", JVal.jstr "Tea"), ("amount", JVal.jnum 3),
        ("type", JVal.jstr "expense"), ("date", JVal.jstr "2024-02-03")]) false
      ⟨1, []⟩).1.nextId = 2 ∧
    (add_transaction (some [("description", JVal.jstr "Tea"), ("amount", JVal.jnum 3),
        ("type", JVal.jstr "expense"), ("date", JVal.jstr "2024-02-03")]) false
      ⟨1, []⟩).1.rows.map (fun t => t.id) = [1]) ∧
    (add_transaction (some [("description", JVal.jstr "Rent"),
        ("amount", JVal.jstr "1e5"), ("type", JVal.jstr "expense"),
        ("date", JVal.jstr "2024-02-03")]) false ⟨1, []⟩).2 = AddResp.ok 1 ∧
    ((add_transaction (some [("description", JVal.jstr "Rent"),
        ("amount", JVal.jstr "nan"), ("type", JVal.jstr "expense"),
        ("date", JVal.jstr "2024-02-03")]) false ⟨1, []⟩).2).isErr = true := by
  refine ⟨?_, ?_, ?_⟩
  · exact (add_transaction_amended (some [("description", JVal.jstr "Tea"),
      ("amount", JVal.jnum 3), ("type", JVal.jstr "expense"),
      ("date", JVal.jstr "2024-02-03")]) false ⟨1, []⟩).2
      (by with_unfolding_all decide)
  · exact ((add_transaction_amended (some [("description", JVal.jstr "Rent"),
      ("amount", JVal.jstr "1e5"), ("type", JVal.jstr "expense"),
      ("date", JVal.jstr "2024-02-03")]) false ⟨1, []⟩).2 (by decide)).1
  · exact (add_transaction_amended (some [("description", JVal.jstr "Rent"),
      ("amount", JVal.jstr "nan"), ("type", JVal.jstr "expense"),
      ("date", JVal.jstr "2024-02-03")]) false ⟨1, []⟩).1.mpr
      (Or.inr ⟨[("description", JVal.jstr "Rent"), ("amount", JVal.jstr "nan"),
        ("type", JVal.jstr "expense"), ("date", JVal.jstr "2024-02-03")], rfl,
        Or.inr (Or.inr (Or.inr (Or.inr (Or.inr (Or.inr (Or.inl (by decide)))))))⟩)

/-! ### The date comparator is total and transitive -/

theorem charsLe_total : ∀ a b : List Char, charsLe a b = true ∨ charsLe b a = true := by
  intro a
  induction a with
  | nil => intro b; exact Or.inl rfl
  | cons x xs ih =>
    intro b
    cases b with
    | nil => exact Or.inr rfl
    | cons y ys =>
      rcases Nat.lt_trichotomy x.toNat y.toNat with h | h | h
      · left
        simp [charsLe, h]
      · rcases ih ys with hxy | hyx
        · left
          simp [charsLe, h, hxy]
        · right
          simp [charsLe, h.symm, hyx]
      · right
        simp [charsLe, h]

theorem charsLe_trans : ∀ a b c : List Char,
    charsLe a b = true → charsLe b c = true → charsLe a c = true := by
  intro a
  induction a with
  | nil => intro b c _ _; rfl
  | cons x xs ih =>
    intro b c hab hbc
    cases b with
    | nil => simp [charsLe] at hab
    | cons y ys =>
      cases c with
      | nil => simp [charsLe] at hbc
      | cons z zs =>
        simp only [charsLe, Bool.or_eq_true, Bool.and_eq_true, decide_eq_true_eq,
          beq_iff_eq] at hab hbc ⊢
        rcases hab with h1 | ⟨h1, h1'⟩
        · rcases hbc with h2 | ⟨h2, _⟩
          · exact Or.inl (Nat.lt_trans h1 h2)
          · exact Or.inl (h2 ▸ h1)
        · rcases hbc with h2 | ⟨h2, h2'⟩
          · exact Or.inl (h1 ▸ h2)
          · exact Or.inr ⟨h1.trans h2, ih ys zs h1' h2'⟩

instance : IsTotal Tx txLe :=
  ⟨fun a b => charsLe_total a.date.data b.date.data⟩

instance : IsTrans Tx txLe :=
  ⟨fun _ _ _ hab hbc => charsLe_trans _ _ _ hab hbc⟩

instance : IsTotal Tx txGe :=
  ⟨fun a b => charsLe_total b.date.data a.date.data⟩

instance : IsTrans Tx txGe :=
  ⟨fun _ _ _ hab hbc => charsLe_trans _ _ _ hbc hab⟩

instance : IsTotal String (fun a b : String => strLeB a b = true) :=
  ⟨fun a b => charsLe_total a.data b.data⟩

instance : IsTrans String (fun a b : String => strLeB a b = true) :=
  ⟨fun _ _ _ hab hbc => charsLe_trans _ _ _ hab hbc⟩

/-! ### Claim C3 -/

/-- Counterexample to C3 as stated: the single-column CSV for an empty
result set has 4 rows (header, summary, a blank spacer row, then
`No transactions`), not 3. -/
theorem csv_single_empty_counterexample :
    download_csv ([] : List Tx) (some "2024-03") none true =
      [["Data"],
       ["Total Income: 0.00 | Total Expense: 0.00 | Balance: 0.00"],
       [""],
       ["No transactions"]] ∧
    (download_csv ([] : List Tx) (some "2024-03") none true).length ≠ 3 := by
  with_unfolding_all decide

/-- C3 amended: a single-column export whose filter matches zero
transactions consists of exactly 4 rows: the header `Data`, the summary
line with zero totals, a blank row (written by `writer.writerow([''])`,
line 189), and `No transactions`. -/
theorem csv_single_empty_amended (txs : List Tx) (month ord : Option String)
    (h : filteredTxs txs month = []) :
    download_csv txs month ord true =
      [["Data"],
       ["Total Income: 0.00 | Total Expense: 0.00 | Balance: 0.00"],
       [""],
       ["No transactions"]] := by
  have hord : orderTxs ord ([] : List Tx) = [] := by
    unfold orderTxs
    cases orderIsDesc ord <;> rfl
  simp only [download_csv, h, hord]
  with_unfolding_all decide

/-- Witness for C3's amended statement on a concrete empty store. -/
theorem csv_single_empty_amended_witness :
    download_csv ([] : List Tx) (some "2024-07") (some "desc") true =
      [["Data"],
       ["Total Income: 0.00 | Total Expense: 0.00 | Balance: 0.00"],
       [""],
       ["No transactions"]] :=
  csv_single_empty_amended ([] : List Tx) (some "2024-07") (some "desc") rfl

/-! ### Claim C6 -/

/-- C10: any `order` value whose lowercase form is not exactly `"desc"`
(including an absent parameter) produces the same CSV as `order=asc` and
ascending date order; exactly the values whose lowercase form is `"desc"`
produce the descending output, and every `order` value yields a document
(the parameter can never cause an error). -/
theorem csv_order_param (txs : List Tx) (month ord : Option String)
    (single : Bool) :
    (orderIsDesc ord = false →
      download_csv txs month ord single =
        download_csv txs month (some "asc") single ∧
      List.Pairwise txLe (orderTxs ord (filteredTxs txs month))) ∧
    (orderIsDesc ord = true →
      download_csv txs month ord single =
        download_csv txs month (some "desc") single ∧
      List.Pairwise txGe (orderTxs ord (filteredTxs txs month))) ∧
    orderIsDesc none = false ∧
    (∀ o : String, orderIsDesc (some o) = true ↔ pyLower o = "desc") := by
  refine ⟨?_, ?_, ?_, ?_⟩
  · intro h
    have hasc : orderIsDesc (some "asc") = false := by with_unfolding_all decide
    constructor
    · unfold download_csv orderTxs
      rw [h, hasc]
    · unfold orderTxs
      rw [h]
      simp only [Bool.false_eq_true, if_false]
      exact List.sorted_insertionSort txLe _
  · intro h
    have hdesc : orderIsDesc (some "desc") = true := by with_unfolding_all decide
    constructor
    · unfold download_csv orderTxs
      rw [h, hdesc]
    · unfold orderTxs
      rw [h]
      simp only [if_true]
      exact List.sorted_insertionSort txGe _
  · with_unfolding_all decide
  · intro o
    unfold orderIsDesc
    simp only [Option.getD_some]
    exact beq_iff_eq

/-- Witness for C10: a case-folded `DESC` equals the `desc` output, and an
arbitrary non-desc value equals the `asc` output, on a concrete store. -/
theorem csv_order_param_witness :
    download_csv [⟨1, "Tea", 3, "expense", "Drink", "2024-02-03"⟩] none
        (some "DeSc") false =
      download_csv [⟨1, "Tea", 3, "expense", "Drink", "2024-02-03"⟩] none
        (some "desc") false ∧
    download_csv [⟨1, "Tea", 3, "expense", "Drink", "2024-02-03"⟩] none
        (some "newest") false =
      download_csv [⟨1, "Tea", 3, "expense", "Drink", "2024-02-03"⟩] none
        (some "asc") false ∧
    (orderIsDesc (some "DeSc") = true ↔ pyLower "DeSc" = "desc") := by
  refine ⟨?_, ?_, ?_⟩
  · exact ((csv_order_param [⟨1, "Tea", 3, "expense", "Drink", "2024-02-03"⟩]
      none (some "DeSc") false).2.1 (by with_unfolding_all decide)).1
  · exact ((csv_order_param [⟨1, "Tea", 3, "expense", "Drink", "2024-02-03"⟩]
      none (some "newest") false).1 (by with_unfolding_all decide)).1
  · exact (csv_order_param [⟨1, "Tea", 3, "expense", "Drink", "2024-02-03"⟩]
      none (some "DeSc") false).2.2.2 "DeSc"

/-! ### Claim C2 -/

theorem monthlyOf_months (txs : List Tx) :
    (monthlyOf txs).map (fun e => e.month) = monthsOf txs := by
  unfold monthlyOf
  rw [List.map_map]
  have h : ((fun e : MonthlyEntry => e.month) ∘ entryFor txs) =
      fun m : String => m := rfl
  rw [h]
  exact List.map_id' _

theorem monthsOf_sorted (txs : List Tx) :
    List.Pairwise (fun a b => strLeB a b = true) (monthsOf txs) :=
  List.sorted_insertionSort _ _

theorem monthsOf_nodup (txs : List Tx) : (monthsOf txs).Nodup :=
  ((List.perm_insertionSort _ _).nodup_iff).mpr (List.nodup_dedup _)

theorem mem_monthsOf (txs : List Tx) (p : String) :
    p ∈ monthsOf txs ↔ ∃ t ∈ txs, take7 t.date = p := by
  unfold monthsOf
  rw [(List.perm_insertionSort _ _).mem_iff, List.mem_dedup, List.mem_map]

theorem entry_field_default (txs : List Tx) (m ty : String)
    (hty : ty = "income" ∨ ty = "expense")
    (h : ∀ t ∈ txs, take7 t.date = m → t.type ≠ ty) :
    dictGet? (entryFor txs m).fields ty = some 0 := by
  unfold entryFor
  refine (dictGet?_setFold_not_mem _ _ _ ?_).trans ?_
  · intro p hp e
    have hk : p.1 ∈ typesOf (txs.filter (fun t => take7 t.date == m)) := by
      rw [← typeSums_keys]
      exact List.mem_map_of_mem Prod.fst hp
    rw [e] at hk
    obtain ⟨t, ht, hty2⟩ := (mem_typesOf _ _).mp hk
    have hmem := List.mem_filter.mp ht
    exact h t hmem.1 (by simpa using hmem.2) hty2
  · rcases hty with rfl | rfl <;> rfl

/-- C2: the statistics `monthly` series ignores the month argument, has its
entries strictly ascending by 7-character month prefix, contains a prefix
exactly when some stored transaction's date starts with it (so exactly one
entry per distinct prefix of the full data set), and an entry whose prefix
has no income (resp. expense) transactions carries 0 in that field. -/
theorem statistics_monthly_spec (txs : List Tx) (m m' : String) :
    (get_statistics m txs).monthly = (get_statistics m' txs).monthly ∧
    List.Pairwise (fun a b => strLeB a b = true ∧ a ≠ b)
      ((get_statistics m txs).monthly.map (fun e => e.month)) ∧
    (∀ p : String,
      p ∈ (get_statistics m txs).monthly.map (fun e => e.month) ↔
        ∃ t ∈ txs, take7 t.date = p) ∧
    (∀ e ∈ (get_statistics m txs).monthly,
      ((∀ t ∈ txs, take7 t.date = e.month → t.type ≠ "income") →
        dictGet? e.fields "income" = some 0) ∧
      ((∀ t ∈ txs, take7 t.date = e.month → t.type ≠ "expense") →
        dictGet? e.fields "expense" = some 0)) := by
  have hmm : (get_statistics m txs).monthly = monthlyOf txs := rfl
  refine ⟨rfl, ?_, ?_, ?_⟩
  · rw [hmm, monthlyOf_months]
    exact (monthsOf_sorted txs).and (monthsOf_nodup txs)
  · intro p
    rw [hmm, monthlyOf_months]
    exact mem_monthsOf txs p
  · intro e he
    rw [hmm] at he
    unfold monthlyOf at he
    obtain ⟨mm, _, rfl⟩ := List.mem_map.mp he
    exact ⟨fun h => entry_field_default txs mm "income" (Or.inl rfl) h,
           fun h => entry_field_default txs mm "expense" (Or.inr rfl) h⟩

/-- Witness for C2 at a concrete store: the single entry of an
expense-only table has income field 0 (and the membership/default
hypotheses are discharged concretely). -/
theorem statistics_monthly_spec_witness :
    dictGet? (entryFor [⟨1, "Tea", 3, "expense", "Drink", "2024-02-03"⟩]
      "2024-02").fields "income" = some 0 :=
  (((statistics_monthly_spec [⟨1, "Tea", 3, "expense", "Drink", "2024-02-03"⟩]
        "2024-02" "1999").2.2.2
      (entryFor [⟨1, "Tea", 3, "expense", "Drink", "2024-02-03"⟩] "2024-02")
      (by with_unfolding_all decide)).1
    (by with_unfolding_all decide))

/-! ### Claim C4 -/

theorem toDigitsCore_append10 : ∀ (f n : Nat) (ds : List Char),
    Nat.toDigitsCore 10 f n ds = Nat.toDigitsCore 10 f n [] ++ ds := by
  intro f
  induction f with
  | zero => intro n ds; rfl
  | succ f ih =>
    intro n ds
    simp only [Nat.toDigitsCore]
    by_cases h : n / 10 = 0
    · simp [h]
    · rw [if_neg h, if_neg h, ih (n / 10) (Nat.digitChar (n % 10) :: ds),
        ih (n / 10) [Nat.digitChar (n % 10)]]
      simp

theorem digitChar_isDigit (k : Nat) (h : k < 10) :
    (Nat.digitChar k).isDigit = true := by
  interval_cases k <;> decide

theorem digitChar_val (k : Nat) (h : k < 10) :
    (Nat.digitChar k).toNat - 48 = k := by
  interval_cases k <;> decide

theorem toDigitsCore_single (f n : Nat) (h0 : n / 10 = 0) :
    Nat.toDigitsCore 10 (f + 1) n [] = [Nat.digitChar (n % 10)] := by
  simp [Nat.toDigitsCore, h0]

theorem toDigitsCore_spec : ∀ f n : Nat, n < 10 ^ (f + 1) →
    (Nat.toDigitsCore 10 (f + 1) n []).foldl
        (fun a c => a * 10 + (c.toNat - 48)) 0 = n ∧
    Nat.toDigitsCore 10 (f + 1) n [] ≠ [] ∧
    ∀ c ∈ Nat.toDigitsCore 10 (f + 1) n [], c.isDigit = true := by
  intro f
  induction f with
  | zero =>
    intro n hn
    have hlt : n < 10 := by simpa using hn
    have h0 : n / 10 = 0 := Nat.div_eq_of_lt hlt
    have hmod : n % 10 = n := Nat.mod_eq_of_lt hlt
    rw [toDigitsCore_single 0 n h0]
    refine ⟨?_, by simp, ?_⟩
    · simp only [List.foldl_cons, List.foldl_nil, Nat.zero_mul, Nat.zero_add]
      rw [digitChar_val (n % 10) (Nat.mod_lt _ (by norm_num))]
      exact hmod
    · intro c hc
      have : c = Nat.digitChar (n % 10) := by simpa using hc
      rw [this]
      exact digitChar_isDigit _ (Nat.mod_lt _ (by norm_num))
  | succ f ih =>
    intro n hn
    by_cases h0 : n / 10 = 0
    · have hlt : n < 10 := (Nat.div_eq_zero_iff (by norm_num)).mp h0
      have hmod : n % 10 = n := Nat.mod_eq_of_lt hlt
      rw [toDigitsCore_single (f + 1) n h0]
      refine ⟨?_, by simp, ?_⟩
      · simp only [List.foldl_cons, List.foldl_nil, Nat.zero_mul, Nat.zero_add]
        rw [digitChar_val (n % 10) (Nat.mod_lt _ (by norm_num))]
        exact hmod
      · intro c hc
        have : c = Nat.digitChar (n % 10) := by simpa using hc
        rw [this]
        exact digitChar_isDigit _ (Nat.mod_lt _ (by norm_num))
    · have hstep : Nat.toDigitsCore 10 (f + 1 + 1) n [] =
          Nat.toDigitsCore 10 (f + 1) (n / 10) [] ++ [Nat.digitChar (n % 10)] := by
        simp only [Nat.toDigitsCore]
        rw [if_neg h0]
        exact toDigitsCore_append10 (f + 1) (n / 10) [Nat.digitChar (n % 10)]
      have hdiv : n / 10 < 10 ^ (f + 1) := by
        rw [Nat.div_lt_iff_lt_mul (by norm_num : (0 : Nat) < 10)]
        calc n < 10 ^ (f + 1 + 1) := hn
        _ = 10 ^ (f + 1) * 10 := by rw [pow_succ]
      obtain ⟨hev, hne, hdig⟩ := ih (n / 10) hdiv
      rw [hstep]
      refine ⟨?_, by simp, ?_⟩
      · rw [List.foldl_append, hev]
        simp [digitChar_val (n % 10) (Nat.mod_lt _ (by norm_num))]
        omega
      · intro c hc
        rcases List.mem_append.mp hc with h | h
        · exact hdig c h
        · have : c = Nat.digitChar (n % 10) := by simpa using h
          rw [this]
          exact digitChar_isDigit _ (Nat.mod_lt _ (by norm_num))

theorem parseNat_repr (n : Nat) : parseNatChars (Nat.repr n).data = some n := by
  have hlt : n < 10 ^ (n + 1) := by
    calc n < 10 ^ n := Nat.lt_pow_self (by norm_num) n
    _ ≤ 10 ^ (n + 1) := Nat.pow_le_pow_right (by norm_num) (Nat.le_succ n)
  obtain ⟨hev, hne, hdig⟩ := toDigitsCore_spec n n hlt
  have hdata : (Nat.repr n).data = Nat.toDigitsCore 10 (n + 1) n [] := rfl
  rw [hdata]
  unfold parseNatChars
  have hie : (Nat.toDigitsCore 10 (n + 1) n []).isEmpty = false := by
    cases hcase : Nat.toDigitsCore 10 (n + 1) n [] with
    | nil => exact absurd hcase hne
    | cons _ _ => rfl
  have hall : (Nat.toDigitsCore 10 (n + 1) n []).all (fun c => c.isDigit) = true :=
    List.all_eq_true.mpr hdig
  rw [hie, hall]
  simp [hev]

theorem rowToTuple_txRow (t : Tx)
    (h : parseDec (format2dp t.amount) = some t.amount) :
    rowToTuple (txRow t) =
      some (t.id, t.description, t.amount, t.type, t.category, t.date) := by
  have hts : (toString t.id : String) = Nat.repr t.id := rfl
  simp only [rowToTuple, txRow, and_self, if_true, hts, parseNat_repr, h]

/-- Counterexample to C4 as stated: a transaction with amount 1/8 (= 0.125,
exactly representable) is exported with the two-decimal rendering `0.12`,
so parsing the transaction row yields the tuple with amount 3/25, not the
stored tuple. -/
theorem csv_roundtrip_counterexample :
    ((download_csv [⟨1, "Item", 1/8, "expense", "Misc", "2024-03-05"⟩]
        none none false).drop 2).map rowToTuple =
      [some (1, "Item", (3/25 : ℚ), "expense", "Misc", "2024-03-05")] ∧
    ((download_csv [⟨1, "Item", 1/8, "expense", "Misc", "2024-03-05"⟩]
        none none false).drop 2).map rowToTuple ≠
      [some (1, "Item", (1/8 : ℚ), "expense", "Misc", "2024-03-05")] := by
  have h1 : ((download_csv [⟨1, "Item", 1/8, "expense", "Misc", "2024-03-05"⟩]
      none none false).drop 2).map rowToTuple =
      [some (1, "Item", (3/25 : ℚ), "expense", "Misc", "2024-03-05")] := by
    with_unfolding_all rfl
  refine ⟨h1, ?_⟩
  rw [h1]
  intro hcontra
  simp only [List.cons.injEq, Option.some.injEq, Prod.mk.injEq] at hcontra
  have h3 : (3/25 : ℚ) = 1/8 := hcontra.1.2.2.1
  norm_num at h3

/-- C4 amended: parsing the transaction rows (rows 3..N) of the
multi-column export reconstructs exactly the stored tuples of the matching
transactions, in the requested date order, provided each amount survives
two-decimal formatting (`parseDec (format2dp a) = some a`); amounts are
otherwise recovered only up to their two-decimal rendering, and when zero
transactions match, row 3 is the `No transactions` placeholder (which
parses as no tuple), not an empty list of rows. -/
theorem csv_roundtrip_amended (txs : List Tx) (month ord : Option String)
    (hamounts : ∀ t ∈ orderTxs ord (filteredTxs txs month),
      parseDec (format2dp t.amount) = some t.amount) :
    (orderTxs ord (filteredTxs txs month) ≠ [] →
      ((download_csv txs month ord false).drop 2).map rowToTuple =
        (orderTxs ord (filteredTxs txs month)).map
          (fun t => some (t.id, t.description, t.amount, t.type, t.category,
            t.date))) ∧
    (orderTxs ord (filteredTxs txs month) = [] →
      ((download_csv txs month ord false).drop 2).map rowToTuple = [none]) := by
  constructor
  · intro hne
    have hie : (orderTxs ord (filteredTxs txs month)).isEmpty = false := by
      cases hcase : orderTxs ord (filteredTxs txs month) with
      | nil => exact absurd hcase hne
      | cons t rest => rfl
    have hdrop : (download_csv txs month ord false).drop 2 =
        (orderTxs ord (filteredTxs txs month)).map txRow := by
      simp only [download_csv, Bool.false_eq_true, if_false, hie,
        List.cons_append, List.nil_append, List.drop_succ_cons, List.drop_zero]
    rw [hdrop, List.map_map]
    apply List.map_congr_left
    intro t ht
    exact rowToTuple_txRow t (hamounts t ht)
  · intro hnil
    have hie : (orderTxs ord (filteredTxs txs month)).isEmpty = true := by
      rw [hnil]
      rfl
    have hdrop : (download_csv txs month ord false).drop 2 =
        [["", "No transactions", "", "", "", "",
          format2dp (dictGet (csvTotals (filteredTxs txs month)) "income" 0),
          format2dp (dictGet (csvTotals (filteredTxs txs month)) "expense" 0),
          format2dp (dictGet (csvTotals (filteredTxs txs month)) "income" 0 -
            dictGet (csvTotals (filteredTxs txs month)) "expense" 0)]] := by
      simp only [download_csv, Bool.false_eq_true, if_false, hie, if_true,
        List.cons_append, List.nil_append, List.drop_succ_cons, List.drop_zero]
    rw [hdrop]
    simp only [List.map_cons, List.map_nil, rowToTuple]
    by_cases hc : format2dp (dictGet (csvTotals (filteredTxs txs month)) "income" 0) = "" ∧
        format2dp (dictGet (csvTotals (filteredTxs txs month)) "expense" 0) = "" ∧
        format2dp (dictGet (csvTotals (filteredTxs txs month)) "income" 0 -
          dictGet (csvTotals (filteredTxs txs month)) "expense" 0) = ""
    · rw [if_pos hc]
      rfl
    · rw [if_neg hc]

/-- Witness for C4's amended statement: the round trip on a one-row store,
and the placeholder row on the empty store. -/
theorem csv_roundtrip_amended_witness :
    ((download_csv [⟨1, "Tea", 3, "expense", "Drink", "2024-02-03"⟩] none none
        false).drop 2).map rowToTuple =
      (orderTxs none (filteredTxs [⟨1, "Tea", 3, "expense", "Drink", "2024-02-03"⟩]
        none)).map
        (fun t => some (t.id, t.description, t.amount, t.type, t.category,
          t.date)) ∧
    ((download_csv ([] : List Tx) none none false).drop 2).map rowToTuple =
      [none] := by
  constructor
  · exact (csv_roundtrip_amended [⟨1, "Tea", 3, "expense", "Drink", "2024-02-03"⟩]
      none none (by with_unfolding_all decide)).1 (by with_unfolding_all decide)
  · exact (csv_roundtrip_amended ([] : List Tx) none none
      (by with_unfolding_all decide)).2 rfl
